import Mathlib

/-!
Shallow embedding of the recompilation module of the sourcify repository
(`recompile.ts`): compiler version canonicalisation (`getSolcJs`), native
compiler location (`getSolcExecutable`, `fetchSolcFromGitHub`), compiler
invocation (`useCompiler`), compiler-output extraction (`recompile`),
metadata stripping (`getBytecodeWithoutMetadata`) and the immutable-variable
heuristic (`probablyImmutables`).

External effects (the filesystem, the HTTP fetch, the spawned subprocess,
the soljson module) are passed in as explicit parameters; JavaScript
runtime behaviour that the claims depend on (truthiness of values,
`parseInt` with radix 16, `String.prototype.slice` index clamping,
propagation of an uncaught promise rejection) is modelled explicitly.
-/

set_option autoImplicit false

/-- Models `process.env.X || default`: an absent variable or an empty string
(both falsy in JavaScript) select the default. -/
def envOr (value : Option String) (default : String) : String :=
  match value with
  | none => default
  | some s => if s = "" then default else s

/-- Models Node's `Path.join(a, b)` for plain segment arguments
(no trailing separators, no `.`/`..` components), which is `a ++ "/" ++ b`. -/
def pathJoin (a b : String) : String := a ++ "/" ++ b

/-- The native-binary file name built at line 210 of the source:
the template literal `solc-linux-amd64-v${version}`. -/
def solcFileName (version : String) : String := "solc-linux-amd64-v" ++ version

/-- Outcome of the `fetch(githubSolcURI)` call: either the HTTP request
resolves with a status code, or the request itself rejects with a network
error. -/
inductive FetchOutcome where
  | response (status : Nat)
  | reject (err : String)
  deriving DecidableEq

/-- Embedding of `fetchSolcFromGitHub` (lines 226-242) over the outcome of
the single `await fetch` it performs. The source has no try/catch: a
rejected fetch propagates out of the function, which the `Except.error`
branch records. On a resolved response, status 200 (`StatusCodes.OK`)
persists the binary and returns `true`; any other status logs and returns
`false`. -/
def fetchSolcFromGitHub (fetch : FetchOutcome) : Except String Bool :=
  match fetch with
  | .reject e => .error e
  | .response status => if status = 200 then .ok true else .ok false

/-- The two environment variables `getSolcExecutable` consults. -/
structure Env where
  SOLC_REPO_TMP : Option String
  SOLC_REPO : Option String
  deriving DecidableEq

/-- The temporary-download directory: `process.env.SOLC_REPO_TMP ||
Path.join("/tmp", "solc-repo")` (line 211). -/
def tmpSolcRepo (env : Env) : String := envOr env.SOLC_REPO_TMP "/tmp/solc-repo"

/-- The configured primary repository directory:
`process.env.SOLC_REPO || "solc-repo"` (line 213). -/
def solcRepoDir (env : Env) : String := envOr env.SOLC_REPO "solc-repo"

/-- Embedding of `getSolcExecutable` (lines 209-224). `fs` is the set of
paths for which `fs.existsSync` returns true. The result carries the
returned path (`none` models the `null` return) together with a flag
recording whether `fetchSolcFromGitHub` was invoked; a rejected fetch
propagates as `Except.error`. The `for` loop over
`[tmpSolcRepo, SOLC_REPO]` returning the first existing path is
`List.find?`. -/
def getSolcExecutable (env : Env) (fs : List String) (fetch : FetchOutcome)
    (version : String) : Except String (Option String × Bool) :=
  match [tmpSolcRepo env, solcRepoDir env].find?
      (fun repoPath => fs.contains (pathJoin repoPath (solcFileName version))) with
  | some repoPath => .ok (some (pathJoin repoPath (solcFileName version)), false)
  | none =>
    match fetchSolcFromGitHub fetch with
    | .error e => .error e
    | .ok true => .ok (some (pathJoin (tmpSolcRepo env) (solcFileName version)), true)
    | .ok false => .ok (none, true)

/-- Result of `spawnSync`. `stdout`/`stderr` are `none` when the stream
object is `null` or `undefined` (e.g. the spawn itself failed) and
`some s` when it is a Buffer decoding to `s`; every Buffer object,
including an empty one, is truthy in JavaScript, so the source's
`!shellOutputBuffer.stdout` test is exactly `stdout = none`. -/
structure SpawnSyncResult where
  stdout : Option String
  stderr : Option String
  error : Option String
  deriving DecidableEq

/-- The ways `useCompiler` can fail: an uncaught network rejection
propagating out of `getSolcExecutable`, the explicit
`throw new Error("Recompilation error")`, or a rejection of the
`getSolcJs` promise. -/
inductive CompilationError where
  | network (e : String)
  | recompilation (msg : String)
  | moduleLoad (e : String)
  deriving DecidableEq

/-- Embedding of `useCompiler` (lines 185-207). `spawnResult` is what
`spawnSync(solcPath, ["--standard-json"], ...)` returns when a native
binary path is found; `moduleResult` is the outcome of the
`getSolcJs(version, log)` promise followed by `soljson.compile`, used when
no native binary is available. The source checks `if (solcPath)` — a
non-null path — and inside that branch throws "Recompilation error"
exactly when `shellOutputBuffer.stdout` is null/undefined. -/
def useCompiler (env : Env) (fs : List String) (fetch : FetchOutcome)
    (spawnResult : SpawnSyncResult) (moduleResult : Except String String)
    (version : String) : Except CompilationError String :=
  match getSolcExecutable env fs fetch version with
  | .error e => .error (.network e)
  | .ok (some _solcPath, _) =>
    match spawnResult.stdout with
    | none => .error (.recompilation "Recompilation error")
    | some out => .ok out
  | .ok (none, _) =>
    match moduleResult with
    | .error e => .error (.moduleLoad e)
    | .ok soljsonCompiled => .ok soljsonCompiled

/-- JavaScript `StrWhiteSpace` as far as ASCII goes: the characters
`String.prototype.trim` strips and `parseInt` skips. -/
def isJsSpace (c : Char) : Bool :=
  c = ' ' || c = '\t' || c = '\n' || c = '\r' || c.toNat = 11 || c.toNat = 12

/-- Model of `String.prototype.trim`: strip leading and trailing
whitespace. -/
def jsTrim (s : String) : String :=
  String.mk (((s.data.dropWhile isJsSpace).reverse.dropWhile isJsSpace).reverse)

/-- Model of `s.startsWith(pre)`. -/
def jsStartsWith (s pre : String) : Bool := pre.data.isPrefixOf s.data

/-- Embedding of the version canonicalisation at the top of `getSolcJs`
(lines 274-277): trim, then prepend `v` unless the value is "latest" or
already starts with `v`. -/
def canonVersion (version : String) : String :=
  let trimmed := jsTrim version
  if trimmed ≠ "latest" ∧ ¬ jsStartsWith trimmed "v" then "v" ++ trimmed
  else trimmed

/-- Value of a single hexadecimal digit, `none` for a non-digit. -/
def hexDigitVal (c : Char) : Option Nat :=
  if '0' ≤ c ∧ c ≤ '9' then some (c.toNat - '0'.toNat)
  else if 'a' ≤ c ∧ c ≤ 'f' then some (c.toNat - 'a'.toNat + 10)
  else if 'A' ≤ c ∧ c ≤ 'F' then some (c.toNat - 'A'.toNat + 10)
  else none

/-- Accumulate the longest run of hexadecimal digits at the front of the
list onto `acc`, stopping at the first non-digit. -/
def hexAccum (acc : Nat) : List Char → Nat
  | [] => acc
  | c :: rest =>
    match hexDigitVal c with
    | none => acc
    | some d => hexAccum (16 * acc + d) rest

/-- Model of JavaScript `parseInt(s, 16)` (ECMA-262 `parseInt` with radix
16): skip leading whitespace, read an optional sign, strip a leading
`0x`/`0X`, then interpret the longest prefix of hexadecimal digits;
`none` models the `NaN` result when that prefix is empty. -/
def parseIntHexChars (cs : List Char) : Option Int :=
  let cs1 := cs.dropWhile isJsSpace
  let sign : Int := match cs1 with
    | '-' :: _ => -1
    | _ => 1
  let cs2 := match cs1 with
    | '-' :: rest => rest
    | '+' :: rest => rest
    | _ => cs1
  let cs3 := match cs2 with
    | '0' :: 'x' :: rest => rest
    | '0' :: 'X' :: rest => rest
    | _ => cs2
  match cs3 with
  | [] => none
  | c :: rest =>
    match hexDigitVal c with
    | none => none
    | some d => some (sign * (hexAccum d rest : Nat))

/-- Model of `bytecode.slice(-4)` (line 252): the characters from index
`max(length - 4, 0)` to the end. -/
def sliceLast4 (s : String) : List Char := s.data.drop (s.data.length - 4)

/-- Model of `s.slice(0, e)` where `e` is a JavaScript number that is
either an integer or `NaN` (`none`): `NaN` converts to end index 0, a
negative `e` means `max(length + e, 0)`, and a non-negative `e` is clamped
to the length. -/
def jsSliceToEnd (s : String) (e : Option Int) : String :=
  match e with
  | none => ""
  | some e =>
    let len : Int := s.data.length
    let endIdx : Int := if e < 0 then max (len + e) 0 else min e len
    String.mk (s.data.take endIdx.toNat)

/-- Embedding of `getBytecodeWithoutMetadata` (lines 250-254):
`metadataSize = parseInt(bytecode.slice(-4), 16) * 2 + 4` and the result is
`bytecode.slice(0, bytecode.length - metadataSize)`. A `NaN` from
`parseInt` propagates through the arithmetic (`none`). -/
def getBytecodeWithoutMetadata (bytecode : String) : String :=
  let metadataSize : Option Int :=
    (parseIntHexChars (sliceLast4 bytecode)).map (fun n => n * 2 + 4)
  jsSliceToEnd bytecode
    (metadataSize.map (fun m => (bytecode.data.length : Int) - m))

/-- Embedding of `probablyImmutables` (lines 312-316):
`bytecode1 && bytecode2 && (bytecode1.length === bytecode2.length) &&
(bytecode1 !== bytecode2)`, with the JavaScript truthiness of a string
(non-emptiness) coerced to `Bool` as the declared return type does. -/
def probablyImmutables (bytecode1 bytecode2 : String) : Bool :=
  decide (bytecode1 ≠ "") && decide (bytecode2 ≠ "") &&
    decide (bytecode1.length = bytecode2.length) && decide (bytecode1 ≠ bytecode2)

/-- `contract.evm.bytecode` / `contract.evm.deployedBytecode`. -/
structure EvmBytecode where
  object : String
  deriving DecidableEq

/-- The `evm` section of a contract entry in compiler output. -/
structure ContractEvm where
  bytecode : EvmBytecode
  deployedBytecode : EvmBytecode
  deriving DecidableEq

/-- One contract entry of the compiler output's `contracts` section. -/
structure ContractEntry where
  evm : ContractEvm
  metadata : String
  deriving DecidableEq

/-- One entry of the compiler output's `errors` array. -/
structure SolcDiagnostic where
  severity : String
  message : String
  deriving DecidableEq

/-- The parsed compiler output as `recompile` reads it: an optional
`contracts` section (a JavaScript object modelled as an association list
file name to contract name to entry) and an optional `errors` array;
`none` models an absent (`undefined`) key. -/
structure SolcOutput where
  contracts : Option (List (String × List (String × ContractEntry)))
  errors : Option (List SolcDiagnostic)
  deriving DecidableEq

/-- JavaScript object property access on an association list. -/
def assocLookup {α : Type} (l : List (String × α)) (k : String) : Option α :=
  (l.find? (fun p => p.1 = k)).map Prod.snd

/-- The access chain `output.contracts[fileName][contractName]` guarded by
the truthiness tests of line 161: present exactly when all three keys are. -/
def lookupContract (output : SolcOutput) (fileName contractName : String) :
    Option ContractEntry :=
  output.contracts.bind fun cs =>
    (assocLookup cs fileName).bind fun fileContracts =>
      assocLookup fileContracts contractName

/-- The `RecompilationResult` interface (lines 86-90). -/
structure RecompilationResult where
  bytecode : String
  deployedBytecode : String
  metadata : String
  deriving DecidableEq

/-- How the tail of `recompile` can throw. `typeErrorUndefinedErrors` is
the TypeError raised by `output.errors.filter(...)` at line 162 when
`output.errors` is `undefined`; `thrown` is an explicit
`throw new Error(msg)`. -/
inductive RecompileErr where
  | typeErrorUndefinedErrors
  | thrown (msg : String)
  deriving DecidableEq

/-- Embedding of the tail of `recompile` (lines 160-172), after
`JSON.parse` succeeded, over the parsed output: if the target contract is
missing, line 162 first maps over `output.errors` (a TypeError when that
key is absent) and then line 164 throws the generic error; otherwise the
result is built with `0x` prefixes and trimmed metadata (lines 167-172). -/
def recompileOutput (output : SolcOutput) (fileName contractName : String) :
    Except RecompileErr RecompilationResult :=
  match lookupContract output fileName contractName with
  | none =>
    match output.errors with
    | none => .error .typeErrorUndefinedErrors
    | some _diagnostics =>
      .error (.thrown "Recompilation error (probably caused by invalid metadata)")
  | some contract =>
    .ok { bytecode := "0x" ++ contract.evm.bytecode.object,
          deployedBytecode := "0x" ++ contract.evm.deployedBytecode.object,
          metadata := jsTrim contract.metadata }

/-- C3: the claim states the native-binary file name never duplicates the
leading `v`. Counterexample: for the version string
"v0.6.6+commit.6c089d02", which already begins with `v`, the constructed
file name is "solc-linux-amd64-vv0.6.6+commit.6c089d02" — two `v`s before
the major number — and not the single-`v` name the claim requires. -/
theorem solcFileName_leading_v_cex :
    solcFileName "v0.6.6+commit.6c089d02" =
      "solc-linux-amd64-vv0.6.6+commit.6c089d02" ∧
    solcFileName "v0.6.6+commit.6c089d02" ≠
      "solc-linux-amd64-v0.6.6+commit.6c089d02" := by
  exact ⟨rfl, by decide⟩

/-- C3 (amended): for every version string the native-binary file name is
the plain concatenation "solc-linux-amd64-v" ++ version; no de-duplication
of a leading `v` is performed, so the name has exactly one `v` before the
major number only when the version itself does not begin with `v`. -/
theorem solcFileName_plain_concat (version : String) :
    solcFileName version = "solc-linux-amd64-v" ++ version := rfl

/-- C6: `probablyImmutables` is false whenever the two bytecodes are
equal, false whenever their lengths differ, false whenever either is
empty, and true for every pair of equal-length, distinct, non-empty
strings. -/
theorem probablyImmutables_spec (a b : String) :
    (a = b → probablyImmutables a b = false) ∧
    (a.length ≠ b.length → probablyImmutables a b = false) ∧
    ((a = "" ∨ b = "") → probablyImmutables a b = false) ∧
    (a.length = b.length → a ≠ b → a ≠ "" → b ≠ "" →
      probablyImmutables a b = true) := by
  refine ⟨fun h => ?_, fun h => ?_, fun h => ?_, fun h1 h2 h3 h4 => ?_⟩
  · simp [probablyImmutables, h]
  · simp [probablyImmutables, h]
  · rcases h with h | h <;> simp [probablyImmutables, h]
  · simp only [probablyImmutables, Bool.and_eq_true, decide_eq_true_eq]
    exact ⟨⟨⟨h3, h4⟩, h1⟩, h2⟩

/-- C6 witness: the positive case at the concrete equal-length, distinct,
non-empty pair "aa", "ab". -/
theorem probablyImmutables_spec_witness : probablyImmutables "aa" "ab" = true :=
  (probablyImmutables_spec "aa" "ab").2.2.2 (by decide) (by decide) (by decide)
    (by decide)

/-- C9: the canonicalisation of `getSolcJs` first trims the raw version
string; a trimmed value equal to "latest" is returned unchanged; a value
already starting with `v` is left as is; otherwise `v` is prepended. -/
theorem canonVersion_spec (s : String) :
    (jsTrim s = "latest" → canonVersion s = "latest") ∧
    (jsStartsWith (jsTrim s) "v" = true → canonVersion s = jsTrim s) ∧
    (jsTrim s ≠ "latest" → jsStartsWith (jsTrim s) "v" = false →
      canonVersion s = "v" ++ jsTrim s) := by
  refine ⟨fun h => ?_, fun h => ?_, fun h1 h2 => ?_⟩
  · simp [canonVersion, h]
  · simp [canonVersion, h]
  · simp [canonVersion, h1, h2]

/-- C9 witness: a version without the leading `v` gets it prepended. -/
theorem canonVersion_spec_witness :
    canonVersion "0.6.6+commit.6c089d02" = "v0.6.6+commit.6c089d02" :=
  (canonVersion_spec "0.6.6+commit.6c089d02").2.2 (by decide) (by decide)

/-- C7: when the native binary for the requested version exists in the
temporary-download directory, `getSolcExecutable` returns that path with
the network untouched (the flag is `false` for every possible fetch
outcome), and it is that path that wins even if the primary repository
directory also has the file, because the temporary directory is searched
first. -/
theorem getSolcExecutable_tmp_first_no_network (env : Env) (fs : List String)
    (fetch : FetchOutcome) (version : String)
    (h : fs.contains (pathJoin (tmpSolcRepo env) (solcFileName version)) = true) :
    getSolcExecutable env fs fetch version =
      .ok (some (pathJoin (tmpSolcRepo env) (solcFileName version)), false) := by
  have hfind : [tmpSolcRepo env, solcRepoDir env].find?
      (fun repoPath => fs.contains (pathJoin repoPath (solcFileName version))) =
      some (tmpSolcRepo env) := List.find?_cons_of_pos _ h
  unfold getSolcExecutable
  rw [hfind]

/-- C7 witness: a version present only in the temporary-download
directory is returned even when the fetch would reject. -/
theorem getSolcExecutable_tmp_first_no_network_witness :
    getSolcExecutable ⟨none, none⟩
      ["/tmp/solc-repo/solc-linux-amd64-v0.6.6+commit.6c089d02"]
      (.reject "ECONNRESET") "0.6.6+commit.6c089d02" =
      .ok (some "/tmp/solc-repo/solc-linux-amd64-v0.6.6+commit.6c089d02", false) :=
  getSolcExecutable_tmp_first_no_network ⟨none, none⟩
    ["/tmp/solc-repo/solc-linux-amd64-v0.6.6+commit.6c089d02"]
    (.reject "ECONNRESET") "0.6.6+commit.6c089d02" (by decide)

/-- C1: the claim states a network-level fetch failure is never surfaced
by the locator and the recompilation call falls through to the module
tier. Counterexample: with both cache directories empty and the fetch
rejecting with "ECONNRESET", `useCompiler` fails with exactly that network
error instead of returning the module tier's result. -/
theorem useCompiler_network_reject_surfaces_cex :
    useCompiler ⟨none, none⟩ [] (.reject "ECONNRESET")
      ⟨some "compiled", none, none⟩ (.ok "module-compiled")
      "0.6.6+commit.6c089d02" = .error (.network "ECONNRESET") ∧
    useCompiler ⟨none, none⟩ [] (.reject "ECONNRESET")
      ⟨some "compiled", none, none⟩ (.ok "module-compiled")
      "0.6.6+commit.6c089d02" ≠ .ok "module-compiled" := by
  constructor
  · rfl
  · intro hcontra
    have heq : (Except.error (CompilationError.network "ECONNRESET") :
        Except CompilationError String) = .ok "module-compiled" := hcontra
    exact Except.noConfusion heq

/-- C1 (amended): when the requested version is absent from both local
cache directories, a remote fetch that resolves with a non-200 status is
not surfaced — the call falls through to the compiler-module tier — but a
fetch that rejects with a network error propagates uncaught and the
overall call fails with that network error. -/
theorem useCompiler_non200_falls_through_network_raises (env : Env)
    (fs : List String) (spawnResult : SpawnSyncResult)
    (moduleCompiled : String) (version : String) (status : Nat)
    (netErr : String)
    (hmiss1 : fs.contains (pathJoin (tmpSolcRepo env) (solcFileName version)) =
      false)
    (hmiss2 : fs.contains (pathJoin (solcRepoDir env) (solcFileName version)) =
      false)
    (hstatus : status ≠ 200) :
    useCompiler env fs (.response status) spawnResult (.ok moduleCompiled)
      version = .ok moduleCompiled ∧
    useCompiler env fs (.reject netErr) spawnResult (.ok moduleCompiled)
      version = .error (.network netErr) := by
  have hnone : [tmpSolcRepo env, solcRepoDir env].find?
      (fun repoPath => fs.contains (pathJoin repoPath (solcFileName version))) =
      none := by
    rw [List.find?_eq_none]
    intro x hx
    simp only [List.mem_cons, List.mem_singleton] at hx
    rcases hx with rfl | rfl | hx
    · simpa using hmiss1
    · simpa using hmiss2
    · exact absurd hx (List.not_mem_nil x)
  constructor
  · unfold useCompiler getSolcExecutable
    rw [hnone]
    simp [fetchSolcFromGitHub, hstatus]
  · unfold useCompiler getSolcExecutable
    rw [hnone]
    rfl

/-- C1 witness for the amended claim at concrete inputs: empty caches, a
404 response falls through to the module result, and a rejected fetch
fails the call with the network error. -/
theorem useCompiler_non200_falls_through_witness :
    useCompiler ⟨none, none⟩ [] (.response 404) ⟨some "compiled", none, none⟩
      (.ok "module-compiled") "0.6.6+commit.6c089d02" =
      .ok "module-compiled" ∧
    useCompiler ⟨none, none⟩ [] (.reject "ETIMEDOUT")
      ⟨some "compiled", none, none⟩ (.ok "module-compiled")
      "0.6.6+commit.6c089d02" = .error (.network "ETIMEDOUT") :=
  useCompiler_non200_falls_through_network_raises ⟨none, none⟩ []
    ⟨some "compiled", none, none⟩ "module-compiled" "0.6.6+commit.6c089d02"
    404 "ETIMEDOUT" (by decide) (by decide) (by decide)

/-- C4: the claim states that an empty standard-output stream makes the
invocation fail with "Recompilation error". Counterexample: with the
native binary present and a spawn result whose stdout is an empty (but
present, hence truthy) Buffer and whose stderr is non-empty, `useCompiler`
returns the empty compiled string instead of failing. -/
theorem useCompiler_empty_stdout_not_error_cex :
    useCompiler ⟨none, none⟩
      ["/tmp/solc-repo/solc-linux-amd64-v0.5.0+commit.1d4f565a"]
      (.response 404) ⟨some "", some "stderr text", none⟩
      (.ok "module-compiled") "0.5.0+commit.1d4f565a" = .ok "" ∧
    useCompiler ⟨none, none⟩
      ["/tmp/solc-repo/solc-linux-amd64-v0.5.0+commit.1d4f565a"]
      (.response 404) ⟨some "", some "stderr text", none⟩
      (.ok "module-compiled") "0.5.0+commit.1d4f565a" ≠
      .error (.recompilation "Recompilation error") := by
  constructor
  · rfl
  · intro hcontra
    have heq : (Except.ok "" : Except CompilationError String) =
        .error (.recompilation "Recompilation error") := hcontra
    exact Except.noConfusion heq

/-- C4 (amended): when a native binary path is resolved, the invocation
fails with "Recompilation error" exactly when the spawn result's stdout
stream is null or undefined (e.g. the spawn itself failed); a present
stdout Buffer — even an empty one — is returned as the compiled output. -/
theorem useCompiler_error_iff_stdout_null (env : Env) (fs : List String)
    (fetch : FetchOutcome) (spawnResult : SpawnSyncResult)
    (moduleResult : Except String String) (version : String) (p : String)
    (netUsed : Bool)
    (hpath : getSolcExecutable env fs fetch version = .ok (some p, netUsed)) :
    (spawnResult.stdout = none →
      useCompiler env fs fetch spawnResult moduleResult version =
        .error (.recompilation "Recompilation error")) ∧
    (∀ out, spawnResult.stdout = some out →
      useCompiler env fs fetch spawnResult moduleResult version = .ok out) := by
  constructor
  · intro h
    unfold useCompiler
    rw [hpath, h]
  · intro out h
    unfold useCompiler
    rw [hpath, h]

/-- C4 witness for the amended claim: a null stdout stream (failed spawn)
raises "Recompilation error". -/
theorem useCompiler_error_iff_stdout_null_witness :
    useCompiler ⟨none, none⟩
      ["/tmp/solc-repo/solc-linux-amd64-v0.5.0+commit.1d4f565a"]
      (.response 404) ⟨none, some "spawn failed", some "ENOENT"⟩
      (.ok "module-compiled") "0.5.0+commit.1d4f565a" =
      .error (.recompilation "Recompilation error") :=
  (useCompiler_error_iff_stdout_null ⟨none, none⟩
    ["/tmp/solc-repo/solc-linux-amd64-v0.5.0+commit.1d4f565a"]
    (.response 404) ⟨none, some "spawn failed", some "ENOENT"⟩
    (.ok "module-compiled") "0.5.0+commit.1d4f565a"
    "/tmp/solc-repo/solc-linux-amd64-v0.5.0+commit.1d4f565a" false
    (by rfl)).1 rfl

/-- C2: the claim states that on output lacking the target contract the
thrown error is always the generic "probably caused by invalid metadata"
message, whether or not an `errors` array is present. On the failing
input whose output has neither a `contracts` nor an `errors` key, the
code instead throws a TypeError from `output.errors.filter(...)` before
reaching the generic throw — a different error from the one the code
itself intends to raise at line 164. -/
theorem recompileOutput_missing_errors_typeerror :
    recompileOutput ⟨none, none⟩ "A.sol" "A" =
      .error .typeErrorUndefinedErrors ∧
    RecompileErr.typeErrorUndefinedErrors ≠
      .thrown "Recompilation error (probably caused by invalid metadata)" ∧
    recompileOutput ⟨none, some [⟨"error", "diagnostic detail"⟩]⟩ "A.sol" "A" =
      .error (.thrown "Recompilation error (probably caused by invalid metadata)") :=
  ⟨rfl, by decide, rfl⟩

/-- C8: for every parsed output containing the target file and contract,
the result carries the creation and deployed bytecode prefixed with `0x`
and the contract's metadata trimmed. -/
theorem recompileOutput_success (output : SolcOutput)
    (fileName contractName : String) (contract : ContractEntry)
    (h : lookupContract output fileName contractName = some contract) :
    recompileOutput output fileName contractName =
      .ok { bytecode := "0x" ++ contract.evm.bytecode.object,
            deployedBytecode := "0x" ++ contract.evm.deployedBytecode.object,
            metadata := jsTrim contract.metadata } := by
  unfold recompileOutput
  rw [h]

/-- The contract entry of the end-to-end scenario of the spec. -/
def sampleContract : ContractEntry :=
  { evm := { bytecode := { object := "6001" },
             deployedBytecode := { object := "6002" } },
    metadata := "  {}  " }

/-- The compiler output of the end-to-end scenario of the spec. -/
def sampleOutput : SolcOutput :=
  { contracts := some [("A.sol", [("A", sampleContract)])], errors := none }

/-- C8 witness: the end-to-end scenario of the spec — bytecode "6001",
deployedBytecode "6002", metadata "  {}  " for contract "A" of "A.sol". -/
theorem recompileOutput_success_witness :
    recompileOutput sampleOutput "A.sol" "A" =
      .ok { bytecode := "0x6001", deployedBytecode := "0x6002",
            metadata := "{}" } :=
  recompileOutput_success sampleOutput "A.sol" "A" sampleContract (by rfl)

/-- `s.slice(0, e)` always produces an initial segment of `s`: whatever the
end index (including `NaN` and negative values), the result is `take k` of
the character list for some `k`. -/
theorem jsSliceToEnd_exists_take (s : String) (e : Option Int) :
    ∃ k, jsSliceToEnd s e = String.mk (s.data.take k) := by
  cases e with
  | none => exact ⟨0, rfl⟩
  | some e => exact ⟨_, rfl⟩

/-- C5: for every bytecode whose final 4 characters parse (radix 16) to
`n` and whose length is at least `2n + 4`, stripping the metadata removes
exactly the trailing `2n + 4` characters. -/
theorem getBytecodeWithoutMetadata_length (bytecode : String) (n : Nat)
    (hparse : parseIntHexChars (sliceLast4 bytecode) = some (n : Int))
    (hlen : 2 * n + 4 ≤ bytecode.length) :
    (getBytecodeWithoutMetadata bytecode).length =
      bytecode.length - (2 * n + 4) := by
  have hlen' : 2 * n + 4 ≤ bytecode.data.length := hlen
  have hmain : getBytecodeWithoutMetadata bytecode =
      jsSliceToEnd bytecode
        (some ((bytecode.data.length : Int) - ((n : Int) * 2 + 4))) := by
    unfold getBytecodeWithoutMetadata
    rw [hparse]
    rfl
  rw [hmain]
  have he : ¬ ((bytecode.data.length : Int) - ((n : Int) * 2 + 4) < 0) := by
    omega
  show (bytecode.data.take
      (if (bytecode.data.length : Int) - ((n : Int) * 2 + 4) < 0 then
        max ((bytecode.data.length : Int) +
          ((bytecode.data.length : Int) - ((n : Int) * 2 + 4))) 0
      else min ((bytecode.data.length : Int) - ((n : Int) * 2 + 4))
        (bytecode.data.length : Int)).toNat).length =
    bytecode.length - (2 * n + 4)
  rw [if_neg he, List.length_take]
  have hL : bytecode.length = bytecode.data.length := rfl
  rw [hL]
  omega

/-- C5 witness: "abcd000001" has final 4 characters "0001", so `n = 1`,
and the stripped result drops the trailing `2 * 1 + 4 = 6` characters. -/
theorem getBytecodeWithoutMetadata_length_witness :
    (getBytecodeWithoutMetadata "abcd000001").length =
      "abcd000001".length - (2 * 1 + 4) :=
  getBytecodeWithoutMetadata_length "abcd000001" 1 (by decide) (by decide)

/-- C10: the claim states that when the final 4 characters are not valid
hexadecimal, the computed size is NaN and the result is empty.
Counterexample: for "abcd0z00" the final 4 characters "0z00" are not a
valid hexadecimal numeral (they contain `z`), yet `parseInt` still reads
the prefix "0" and yields 0 — not NaN — so the computed size is 4 and the
result is "abcd", not the empty string. -/
theorem getBytecodeWithoutMetadata_nonhex_cex :
    (sliceLast4 "abcd0z00").all (fun c => (hexDigitVal c).isSome) = false ∧
    parseIntHexChars (sliceLast4 "abcd0z00") = some 0 ∧
    getBytecodeWithoutMetadata "abcd0z00" = "abcd" ∧
    getBytecodeWithoutMetadata "abcd0z00" ≠ "" := by
  refine ⟨by decide, by decide, by decide, by decide⟩

/-- C10 (amended): `getBytecodeWithoutMetadata` is total and always
returns a prefix of its input — including for inputs shorter than the
computed metadata size, where the negative slice end still clamps to an
initial segment — and whenever `parseInt` of the final 4 characters
yields NaN (no parseable hexadecimal prefix), the result is the empty
string. -/
theorem getBytecodeWithoutMetadata_total_initial_segment (bytecode : String) :
    (getBytecodeWithoutMetadata bytecode).data <+: bytecode.data ∧
    (parseIntHexChars (sliceLast4 bytecode) = none →
      getBytecodeWithoutMetadata bytecode = "") := by
  have hmain : getBytecodeWithoutMetadata bytecode =
      jsSliceToEnd bytecode
        (((parseIntHexChars (sliceLast4 bytecode)).map
          (fun n => n * 2 + 4)).map
            (fun m => (bytecode.data.length : Int) - m)) := rfl
  constructor
  · obtain ⟨k, hk⟩ := jsSliceToEnd_exists_take bytecode
      (((parseIntHexChars (sliceLast4 bytecode)).map (fun n => n * 2 + 4)).map
        (fun m => (bytecode.data.length : Int) - m))
    rw [hmain, hk]
    exact ⟨bytecode.data.drop k, List.take_append_drop k bytecode.data⟩
  · intro hp
    rw [hmain, hp]
    rfl

/-- C10 witness for the amended claim: on "zzzz" the parse yields NaN and
the result is the empty string. -/
theorem getBytecodeWithoutMetadata_total_initial_segment_witness :
    getBytecodeWithoutMetadata "zzzz" = "" :=
  (getBytecodeWithoutMetadata_total_initial_segment "zzzz").2 (by decide)
